import Mathlib

/-!
Verification development for the transcript-retrieval pipeline of the
repository `mcp-server-youtube-transcript`.  The TypeScript sources are
shallowly embedded: pure functions become Lean functions, JavaScript
numbers that hold integers become `Nat`/`Int`, fractional second values
become `Rat`, and possibly-`undefined` values become `Option`.  The
strings the pipeline manipulates are ASCII, so character-list based
models of the UTF-16 based JavaScript string operations are faithful on
every input that occurs; each model function documents the JavaScript
operation it stands for.
-/

namespace YT

/-- Model of the JavaScript `||` operator on a possibly-undefined string
value (`none` models `undefined`): both `undefined` and the empty string
are falsy, so those move evaluation on to the right operand. -/
def jsOrStr (a b : Option String) : Option String :=
  match a with
  | some s => if s = "" then b else some s
  | none => b

/-- Model of JavaScript `hay.includes(needle)` substring containment. -/
def jsIncludes (hay needle : String) : Bool :=
  hay.data.tails.any (fun t => needle.data.isPrefixOf t)

/-- Model of JavaScript `s.startsWith(pre)`. -/
def jsStartsWith (s pre : String) : Bool :=
  pre.data.isPrefixOf s.data

/-- Model of JavaScript `s.slice(n)` (code-unit based in JavaScript; the
sliced strings in the source are ASCII, where units and characters
coincide). -/
def jsSlice (s : String) (n : Nat) : String :=
  String.mk (s.data.drop n)

/-- Model of JavaScript `s.trim()`: whitespace is removed from both ends
(the transcripts in scope contain only ASCII whitespace). -/
def jsTrim (s : String) : String :=
  String.mk (((s.data.dropWhile Char.isWhitespace).reverse.dropWhile Char.isWhitespace).reverse)

/-- Error codes of the MCP SDK referenced by the server source. -/
inductive ErrorCode where
  | InvalidParams
  | InternalError
  | MethodNotFound
  deriving DecidableEq

/-- Model of `McpError` as constructed by the server: a code and a
message string. -/
structure McpError where
  code : ErrorCode
  message : String
  deriving DecidableEq

/-- Observable result of a successful WHATWG `new URL(input)` parse,
restricted to the three observations the source makes on the parsed
object.  `searchParamV` models `url.searchParams.get("v")`, with `none`
for a `null` result. -/
structure URLParts where
  hostname : String
  pathname : String
  searchParamV : Option String
  deriving DecidableEq

/-- Character class `[a-zA-Z0-9_-]` of the bare-identifier regular
expression in `extractYoutubeId`. -/
def isIdChar (c : Char) : Bool :=
  c.isAlphanum || c == '_' || c == '-'

/-- Matcher for `[a-zA-Z0-9_-]{10,11}$` on a list of characters. -/
def matchesIdCore (l : List Char) : Bool :=
  decide (10 ≤ l.length) && decide (l.length ≤ 11) && l.all isIdChar

/-- Matcher for the bare-identifier regular expression
`^-?[a-zA-Z0-9_-]{10,11}$` used by `extractYoutubeId`; the optional
leading dash is tried consumed first and unconsumed second, exactly as a
backtracking regex engine resolves `-?`. -/
def matchesIdPattern (s : String) : Bool :=
  match s.data with
  | '-' :: rest => matchesIdCore rest || matchesIdCore ('-' :: rest)
  | l => matchesIdCore l

/-- Outcome of the `try` block body of `extractYoutubeId`: an early
return, a thrown `McpError`, or falling out of the block without
returning (hostname matching neither branch). -/
inductive TryOutcome where
  | ret (id : String)
  | thrown (e : McpError)
  | fallthrough
  deriving DecidableEq

/-- Body of the `try` block of `extractYoutubeId` (src/src/index.ts lines
77 to 101) applied to the parsed URL.  The check `if (!videoId)` on the
`v` query parameter treats both a `null` result and an empty string as
falsy. -/
def extractTryBody (input : String) (url : URLParts) : TryOutcome :=
  if url.hostname = "youtu.be" then
    .ret (jsSlice url.pathname 1)
  else if jsIncludes url.hostname ("youtube.com") then
    if jsStartsWith url.pathname ("/shorts/") then
      let id := jsSlice url.pathname 8
      if id = "" then
        .thrown ⟨.InvalidParams, "Invalid YouTube Shorts URL: missing video ID"⟩
      else
        .ret id
    else
      match url.searchParamV with
      | some v =>
          if v = "" then .thrown ⟨.InvalidParams, "Invalid YouTube URL: " ++ input⟩
          else .ret v
      | none => .thrown ⟨.InvalidParams, "Invalid YouTube URL: " ++ input⟩
  else
    .fallthrough

/-- Catch branch of `extractYoutubeId` (src/src/index.ts lines 102 to
111): any error raised while treating the input as a URL falls back to
validating the whole input string against the bare-identifier pattern. -/
def catchBranch (input : String) : Except McpError String :=
  if matchesIdPattern input then .ok input
  else .error ⟨.InvalidParams, "Invalid YouTube video ID: " ++ input⟩

/-- Resolution of the try block outcome: a returned value is the result,
a thrown error transfers control to the catch branch, and falling out of
the block reaches the final throw after the try statement
(src/src/index.ts lines 113 to 116). -/
def extractResolve (input : String) (o : TryOutcome) : Except McpError String :=
  match o with
  | .ret id => .ok id
  | .thrown _ => catchBranch input
  | .fallthrough => .error ⟨.InvalidParams, "Could not extract video ID from: " ++ input⟩

/-- Shallow embedding of `YouTubeTranscriptExtractor.extractYoutubeId`
(src/src/index.ts lines 67 to 117).  The WHATWG URL parse of the input
is supplied as `parse`, with `none` modelling a throwing
`new URL(input)`. -/
def extractYoutubeId (input : String) (parse : Option URLParts) : Except McpError String :=
  if input = "" then
    .error ⟨.InvalidParams, "YouTube URL or ID is required"⟩
  else
    match parse with
    | none => catchBranch input
    | some url => extractResolve input (extractTryBody input url)

/-- Model of one byte of a UTF-8 encoder, as `Buffer.from(string)`
performs it: the code point of the character is split into 1 to 4
bytes. -/
def utf8Char (c : Char) : List Nat :=
  let n := c.toNat
  if n < 0x80 then [n]
  else if n < 0x800 then [0xc0 ||| (n >>> 6), 0x80 ||| (n &&& 0x3f)]
  else if n < 0x10000 then
    [0xe0 ||| (n >>> 12), 0x80 ||| ((n >>> 6) &&& 0x3f), 0x80 ||| (n &&& 0x3f)]
  else
    [0xf0 ||| (n >>> 18), 0x80 ||| ((n >>> 12) &&& 0x3f), 0x80 ||| ((n >>> 6) &&& 0x3f),
      0x80 ||| (n &&& 0x3f)]

/-- Model of `Buffer.from(s)` for a string: its UTF-8 bytes. -/
def strBytes (s : String) : List Nat :=
  (s.data.map utf8Char).flatten

/-- Model of the JavaScript `s.length` property: the number of UTF-16
code units of the string. -/
def utf16Length (s : String) : Nat :=
  (s.data.map (fun c => if c.toNat < 0x10000 then 1 else 2)).sum

/-- Model of `Buffer.from(array)` for a number array: each entry is
masked to its low byte. -/
def bufFrom (l : List Nat) : List Nat :=
  l.map (fun b => b % 256)

/-- Code of the base64 alphabet character at index `i` (standard
alphabet, as `buf.toString("base64")` uses). -/
def b64Char (i : Nat) : Nat :=
  if i < 26 then 65 + i
  else if i < 52 then 71 + i
  else if i < 62 then i - 4
  else if i = 62 then 43
  else 47

/-- Model of `buf.toString("base64")` on a byte list, producing the byte
codes of the base64 text, with `=` (code 61) padding. -/
def base64Bytes : List Nat → List Nat
  | [] => []
  | [a] => [b64Char (a >>> 2), b64Char ((a &&& 3) <<< 4), 61, 61]
  | [a, b] => [b64Char (a >>> 2), b64Char (((a &&& 3) <<< 4) ||| (b >>> 4)),
      b64Char ((b &&& 15) <<< 2), 61]
  | a :: b :: c :: rest =>
      b64Char (a >>> 2) :: b64Char (((a &&& 3) <<< 4) ||| (b >>> 4)) ::
      b64Char (((b &&& 15) <<< 2) ||| (c >>> 6)) :: b64Char (c &&& 63) :: base64Bytes rest

/-- Byte codes left unescaped by JavaScript `encodeURIComponent`:
letters, digits and `- . _ ~ ! * ( )` and the apostrophe (code 39). -/
def isUnreservedByte (b : Nat) : Bool :=
  (decide (65 ≤ b) && decide (b ≤ 90)) || (decide (97 ≤ b) && decide (b ≤ 122)) ||
  (decide (48 ≤ b) && decide (b ≤ 57)) ||
  b == 45 || b == 46 || b == 95 || b == 126 || b == 33 || b == 42 || b == 39 ||
  b == 40 || b == 41

/-- Uppercase hexadecimal digit code for a value below 16. -/
def hexDigitUpper (n : Nat) : Nat :=
  if n < 10 then 48 + n else 55 + n

/-- Model of `encodeURIComponent` on an ASCII string viewed as its byte
list: unreserved bytes are kept, every other byte becomes a
percent-escape with two uppercase hexadecimal digits. -/
def percentEncodeBytes : List Nat → List Nat
  | [] => []
  | b :: rest =>
      (if isUnreservedByte b then [b]
       else [37, hexDigitUpper (b >>> 4), hexDigitUpper (b &&& 15)]) ++
      percentEncodeBytes rest

namespace Fetcher

/-- Loop body of `encodeVarint` with a structural fuel bound on the
number of iterations; the fuel is immaterial whenever it is at least the
value (see `encodeVarintFuel_congr`), which keeps the definition
computable by the kernel. -/
def encodeVarintFuel : Nat → Nat → List Nat
  | 0, value => [value]
  | fuel + 1, value =>
      if 0x7f < value then
        ((value &&& 0x7f) ||| 0x80) :: encodeVarintFuel fuel (value >>> 7)
      else
        [value]

/-- Shallow embedding of `encodeVarint` (src/src/index.ts lines 385 to
393): protobuf varint encoding, 7 payload bits per byte, continuation
bit on all but the last byte, least significant group first.  The
`while (value > 0x7f)` loop of the source is modelled with fuel; the
theorem `encodeVarint_eq` recovers the literal loop equation. -/
def encodeVarint (value : Nat) : List Nat :=
  encodeVarintFuel value value

/-- Panel name literal embedded as field 5 of the outer record. -/
def panelName : String :=
  "engagement-panel-searchable-transcript-search-panel"

/-- Inner protobuf byte array of `buildParams` (src/src/index.ts lines
403 to 407): field 1 the literal `asr`, field 2 the varint
length-prefixed language code, field 3 empty.  JavaScript `lang.length`
is the UTF-16 length. -/
def innerParts (lang : String) : List Nat :=
  [0x0a, 0x03] ++ strBytes ("asr") ++
  ([0x12] ++ encodeVarint (utf16Length lang) ++ strBytes lang) ++
  [0x1a, 0x00]

/-- Percent-encoded base64 text of the inner record (src/src/index.ts
lines 408 to 410), as its ASCII byte list. -/
def innerEncoded (lang : String) : List Nat :=
  percentEncodeBytes (base64Bytes (bufFrom (innerParts lang)))

/-- Outer protobuf byte array of `buildParams` (src/src/index.ts lines
414 to 422): field 1 the video id, field 2 the encoded inner record,
field 3 = 1, field 5 the panel name, fields 6, 7, 8 = 1, every length
prefix varint encoded. -/
def outerParts (videoId lang : String) : List Nat :=
  [0x0a] ++ encodeVarint (utf16Length videoId) ++ strBytes videoId ++
  ([0x12] ++ encodeVarint ((innerEncoded lang).length) ++ innerEncoded lang) ++
  [0x18, 0x01] ++
  ([0x2a] ++ encodeVarint (utf16Length panelName) ++ strBytes panelName) ++
  [0x30, 0x01, 0x38, 0x01, 0x40, 0x01]

/-- Outer record bytes after the `Buffer.from` mask. -/
def outerBytes (videoId lang : String) : List Nat :=
  bufFrom (outerParts videoId lang)

/-- Shallow embedding of `buildParams` (src/src/index.ts lines 398 to
425): the base64 text of the outer record. -/
def buildParams (videoId lang : String) : String :=
  String.mk ((base64Bytes (outerBytes videoId lang)).map Char.ofNat)

end Fetcher

namespace LegacyFetcher

/-- Shallow embedding of the inner record of the legacy `buildParams`
variant (src/unnamed/part_000 lines 17 to 21): identical to the strict
variant except that the length of the language code is emitted as a
single array entry instead of a varint. -/
def innerParts (lang : String) : List Nat :=
  [0x0a, 0x03] ++ strBytes ("asr") ++
  ([0x12, utf16Length lang] ++ strBytes lang) ++
  [0x1a, 0x00]

/-- Percent-encoded base64 text of the legacy inner record
(src/unnamed/part_000 lines 22 to 24). -/
def innerEncoded (lang : String) : List Nat :=
  percentEncodeBytes (base64Bytes (bufFrom (innerParts lang)))

/-- Outer record of the legacy `buildParams` variant
(src/unnamed/part_000 lines 28 to 36), all length prefixes single array
entries. -/
def outerParts (videoId lang : String) : List Nat :=
  [0x0a, utf16Length videoId] ++ strBytes videoId ++
  ([0x12, (innerEncoded lang).length] ++ innerEncoded lang) ++
  [0x18, 0x01] ++
  ([0x2a, utf16Length Fetcher.panelName] ++ strBytes Fetcher.panelName) ++
  [0x30, 0x01, 0x38, 0x01, 0x40, 0x01]

/-- Shallow embedding of the legacy `buildParams`
(src/unnamed/part_000 lines 12 to 39). -/
def buildParams (videoId lang : String) : String :=
  String.mk ((base64Bytes (bufFrom (outerParts videoId lang))).map Char.ofNat)

end LegacyFetcher

/-- Varint decoder, inverse of `Fetcher.encodeVarint`: used to state
that the encoded field boundaries are recoverable. -/
def decodeVarint : List Nat → Option (Nat × List Nat)
  | [] => none
  | b :: rest =>
      if b < 0x80 then some (b, rest)
      else
        match decodeVarint rest with
        | some (n, rest2) => some ((b - 0x80) + 0x80 * n, rest2)
        | none => none

/-- Reads a varint length prefix and then that many payload bytes. -/
def readLenPrefixed (bs : List Nat) : Option (List Nat × List Nat) :=
  match decodeVarint bs with
  | some (n, rest) => if n ≤ rest.length then some (rest.take n, rest.drop n) else none
  | none => none

/-- Consumes one expected byte. -/
def expectByte (b : Nat) : List Nat → Option (List Nat)
  | [] => none
  | x :: rest => if x = b then some rest else none

/-- Field-level decoder for the outer record produced by `buildParams`:
consumes tag bytes, varint length prefixes and the three fixed
single-byte fields, returning the three variable-length field payloads
(video id, encoded inner record, panel name). -/
def decodeOuter (bs : List Nat) : Option (List Nat × List Nat × List Nat) := do
  let r1 ← expectByte 0x0a bs
  let (f1, r2) ← readLenPrefixed r1
  let r3 ← expectByte 0x12 r2
  let (f2, r4) ← readLenPrefixed r3
  let r5 ← expectByte 0x18 r4
  let r6 ← expectByte 0x01 r5
  let r7 ← expectByte 0x2a r6
  let (f5, r8) ← readLenPrefixed r7
  let r9 ← expectByte 0x30 r8
  let r10 ← expectByte 0x01 r9
  let r11 ← expectByte 0x38 r10
  let r12 ← expectByte 0x01 r11
  let r13 ← expectByte 0x40 r12
  let r14 ← expectByte 0x01 r13
  if r14 = [] then some (f1, f2, f5) else none

/-- One entry of `snippet.runs`; `text` is optional, defaulted with
`r.text || ""` during extraction. -/
structure Run where
  text : Option String
  deriving DecidableEq

/-- The `snippet.elementsAttributedString` object of the mobile response
shape. -/
structure AttributedString where
  content : Option String
  deriving DecidableEq

/-- The `snippet` object of a segment renderer; either `runs` (web
shape) or `elementsAttributedString` (mobile shape) may be present. -/
structure Snippet where
  runs : Option (List Run)
  elementsAttributedString : Option AttributedString
  deriving DecidableEq

/-- The `transcriptSegmentRenderer` payload of one segment.  In the
response `startMs` and `endMs` are decimal strings; `parseInt(x, 10)`
yields their numeric value, and `x || "0"` defaults an absent field to
zero, so they are modelled as optional naturals. -/
structure SegmentRenderer where
  snippet : Option Snippet
  startMs : Option Nat
  endMs : Option Nat
  deriving DecidableEq

/-- One entry of an `initialSegments` list; section header entries have
no renderer payload. -/
structure Segment where
  transcriptSegmentRenderer : Option SegmentRenderer
  deriving DecidableEq

/-- The `TranscriptLine` interface of the sources: text with start and
duration in fractional seconds. -/
structure TranscriptLine where
  text : String
  start : ℚ
  dur : ℚ
  deriving DecidableEq

/-- Error kinds thrown by `getSubtitles` after a successful HTTP round
trip, named after the taxonomy of the spec; the source throws `Error`
values with fixed message families. -/
inductive FetchError where
  | ParseError (preview : String)
  | ApiError (message : String)
  | NoTranscriptAvailable
  deriving DecidableEq

/-- Per-segment conversion of `getSubtitles` (src/src/index.ts lines 574
to 589): the web text joins the runs defaulted with `r.text || ""`, the
mobile text is the attributed-string content, `webText || androidText ||
""` picks the first non-empty of them, and the offsets convert from
milliseconds to seconds. -/
def renderLine (renderer : SegmentRenderer) : TranscriptLine :=
  let webText := (renderer.snippet.bind (fun sn => sn.runs)).map
    (fun rs => String.join (rs.map (fun r => r.text.getD (""))))
  let androidText := (renderer.snippet.bind (fun sn => sn.elementsAttributedString)).bind
    (fun a => a.content)
  let text := (jsOrStr (jsOrStr webText androidText) (some (""))).getD ("")
  let startMs := renderer.startMs.getD 0
  let endMs := renderer.endMs.getD 0
  { text := text, start := (startMs : ℚ) / 1000, dur := ((endMs : ℚ) - (startMs : ℚ)) / 1000 }

/-- Conversion pipeline of `getSubtitles` (src/src/index.ts lines 572 to
591): section headers without a renderer are skipped (the source filter
on `seg?.transcriptSegmentRenderer` followed by the renderer access is
one `filterMap`), each remaining renderer becomes a line, and lines with
empty extracted text are dropped. -/
def convertSegments (segments : List Segment) : List TranscriptLine :=
  ((segments.filterMap (fun seg => seg.transcriptSegmentRenderer)).map renderLine).filter
    (fun line => decide (0 < line.text.length))

/-- Selection `webSegments || androidSegments || []` (src/src/index.ts
line 565).  JavaScript arrays are truthy even when empty, so a present
web list is used as is, and the mobile list is consulted only when the
web path is absent. -/
def selectSegments (webSegments androidSegments : Option (List Segment)) : List Segment :=
  match webSegments with
  | some l => l
  | none =>
      match androidSegments with
      | some l => l
      | none => []

/-- Segment extraction of `getSubtitles` (src/src/index.ts lines 557 to
591), starting from the two optional chained segment paths of the
parsed response: the selected list must be non-empty, else the
no-transcript error is thrown; otherwise the lines are converted. -/
def extractLines (webSegments androidSegments : Option (List Segment)) :
    Except FetchError (List TranscriptLine) :=
  if (selectSegments webSegments androidSegments).length = 0 then
    .error .NoTranscriptAvailable
  else
    .ok (convertSegments (selectSegments webSegments androidSegments))

/-- The `json.error` object: optional `message` and `code` fields. -/
structure ErrObj where
  message : Option String
  code : Option String
  deriving DecidableEq

/-- Error message selection `json.error.message || json.error.code ||
"Unknown API error"` (src/src/index.ts lines 552 to 553). -/
def apiErrorMessage (e : ErrObj) : String :=
  (jsOrStr (jsOrStr e.message e.code) (some ("Unknown API error"))).getD ("")

/-- One available caption language track. -/
structure LanguageTrack where
  languageCode : String
  deriving DecidableEq

/-- One sponsor-labeled chapter with a half-open millisecond interval. -/
structure AdChapter where
  title : String
  startMs : ℚ
  endMs : ℚ
  deriving DecidableEq

/-- Descriptive metadata surfaced next to the transcript. -/
structure VideoMetadata where
  title : String
  author : String
  subscriberCount : String
  viewCount : String
  publishDate : String
  deriving DecidableEq

/-- Modelled from the spec: the observable fields of a well-formed
transcript API response consumed by the decoder variant that the server
imports from `./youtube-fetcher`: the optional error object, the two
optional segment paths, and the sibling fields carrying the available
tracks, the ad chapters and the metadata. -/
structure ApiResponse where
  error : Option ErrObj
  webSegments : Option (List Segment)
  androidSegments : Option (List Segment)
  availableTracks : Option (List LanguageTrack)
  adChapters : Option (List AdChapter)
  metadata : VideoMetadata
  deriving DecidableEq

/-- Decoder output shape of spec section 4.5. -/
structure DecodedTranscript where
  captionLines : List TranscriptLine
  availableTracks : List LanguageTrack
  adChapters : List AdChapter
  metadata : VideoMetadata
  deriving DecidableEq

/-- Modelled from the spec: the Response Decoder variant whose result
carries `availableTracks`, `adChapters` and `metadata` next to the
caption lines.  The fetcher file bundled under src returns only the
caption lines, so the sibling-field reading is missing from the
sources; spec section 4.5 describes it: the two lists are read from
sibling fields of the same response when present, and absence yields
empty lists, never an error.  API error checking and segment extraction
follow the fetcher that is in the sources. -/
def decodeResponse (r : ApiResponse) : Except FetchError DecodedTranscript :=
  match r.error with
  | some e => .error (.ApiError (apiErrorMessage e))
  | none =>
      match extractLines r.webSegments r.androidSegments with
      | .error e => .error e
      | .ok lines =>
          .ok { captionLines := lines,
                availableTracks := r.availableTracks.getD [],
                adChapters := r.adChapters.getD [],
                metadata := r.metadata }

/-- Ad-chapter filtering step of `getTranscript` (src/src/index.ts lines
147 to 160): when filtering is on and chapters exist, a line is kept iff
its start in milliseconds lies in no chapter interval
`[startMs, endMs)`; the second component is the number of removed
lines. -/
def stripAdChapters (stripAds : Bool) (adChapters : List AdChapter)
    (lines : List TranscriptLine) : List TranscriptLine × Nat :=
  if stripAds && decide (0 < adChapters.length) then
    let filtered := lines.filter (fun line =>
      ! adChapters.any (fun ad =>
        decide (ad.startMs ≤ line.start * 1000) && decide (line.start * 1000 < ad.endMs)))
    (filtered, lines.length - filtered.length)
  else
    (lines, 0)

/-- Model of `s.padStart(2, "0")`. -/
def padStart2 (s : String) : String :=
  if s.length < 2 then String.mk (List.replicate (2 - s.length) '0') ++ s else s

/-- Timestamp of one line in `formatTranscript` (src/src/index.ts lines
186 to 193).  `Math.floor` on the fractional second count is the
rational floor; the JavaScript `%` operator is the truncating remainder
`Int.tmod`, and `Math.floor` of the real quotient of integers is the
flooring division `Int.fdiv`. -/
def formatTimestamp (start : ℚ) : String :=
  let totalSeconds : Int := Rat.floor start
  let hours : Int := Int.fdiv totalSeconds 3600
  let mins : Int := Int.fdiv (Int.tmod totalSeconds 3600) 60
  let secs : Int := Int.tmod totalSeconds 60
  if 0 < hours then
    ("[") ++ toString hours ++ (":") ++ padStart2 (toString mins) ++ (":") ++
      padStart2 (toString secs) ++ ("]")
  else
    ("[") ++ toString mins ++ (":") ++ padStart2 (toString secs) ++ ("]")

/-- Shallow embedding of `formatTranscript` (src/src/index.ts lines 182
to 203).  In timestamped mode each line maps to the timestamp, a space
and the trimmed text, then strings of positive length are kept and
joined with a newline; in plain mode each line maps to its trimmed
text, non-empty results are kept and joined with single spaces. -/
def formatTranscript (transcript : List TranscriptLine) (includeTimestamps : Bool) : String :=
  if includeTimestamps then
    String.intercalate ("\n")
      ((transcript.map (fun line => formatTimestamp line.start ++ (" ") ++ jsTrim line.text)).filter
        (fun t => decide (0 < t.length)))
  else
    String.intercalate (" ")
      ((transcript.map (fun line => jsTrim line.text)).filter (fun t => decide (0 < t.length)))

/-- Language fallback notice of `handleToolCall` (src/src/index.ts line
285). -/
def languageFallbackNote (lang actualLang : String) (availableLanguages : List String) : String :=
  ("[Note: Requested language \x27") ++ lang ++ ("\x27 not available. Using \x27") ++
  actualLang ++ ("\x27. Available: ") ++ String.intercalate (", ") availableLanguages ++ ("]")

/-- Sponsored-segment removal notice of `handleToolCall`
(src/src/index.ts line 291). -/
def sponsoredFilteredNote (adsStripped : Nat) : String :=
  ("[Note: ") ++ toString adsStripped ++
  (" sponsored segment lines filtered out based on chapter markers]")

/-- Fallback hint of `handleToolCall` when no chapter markers exist
(src/src/index.ts line 294). -/
def noChapterMarkersNote : String :=
  "[Note: No chapter markers found. If summarizing, please exclude any sponsored segments or ads from the summary.]"

/-- Notice assembly of `handleToolCall` (src/src/index.ts lines 281 to
295): the language fallback note is prepended when the served language
differs from the requested one; then either the removal notice is
prepended (some lines removed), or, when filtering was requested and no
chapter markers existed, the manual-exclusion note is appended. -/
def applyNotices (text lang actualLang : String) (availableLanguages : List String)
    (adsStripped : Nat) (stripAds : Bool) (adChaptersFound : Nat) : String :=
  let t1 := if actualLang ≠ lang then
      languageFallbackNote lang actualLang availableLanguages ++ ("\n\n") ++ text
    else text
  if 0 < adsStripped then
    sponsoredFilteredNote adsStripped ++ ("\n\n") ++ t1
  else if stripAds && decide (adChaptersFound = 0) then
    t1 ++ ("\n\n") ++ noChapterMarkersNote
  else t1

/-- A well-formed web-shaped caption segment used as a concrete decoder
input: one run with text `hi`, spanning 1000 to 2000 milliseconds. -/
def sampleSegment : Segment :=
  { transcriptSegmentRenderer := some
      { snippet := some
          { runs := some [{ text := some ("hi") }],
            elementsAttributedString := none },
        startMs := some 1000,
        endMs := some 2000 } }

/-- Empty best-effort metadata. -/
def sampleMetadata : VideoMetadata :=
  { title := (""), author := (""), subscriberCount := (""), viewCount := (""),
    publishDate := ("") }

/-- A well-formed response carrying one web segment and neither sibling
field. -/
def sampleResponse : ApiResponse :=
  { error := none, webSegments := some [sampleSegment], androidSegments := none,
    availableTracks := none, adChapters := none, metadata := sampleMetadata }

/-- The decoded transcript of `sampleResponse`. -/
def sampleDecoded : DecodedTranscript :=
  { captionLines := convertSegments [sampleSegment], availableTracks := [],
    adChapters := [], metadata := sampleMetadata }

/-- Shift by 7 is division by 128. -/
theorem shiftRight7_eq_div (v : Nat) : v >>> 7 = v / 128 := by
  rw [Nat.shiftRight_eq_div_pow]

/-- The fuel argument of `Fetcher.encodeVarintFuel` does not matter once
it is at least the encoded value. -/
theorem encodeVarintFuel_congr :
    ∀ fuel1 fuel2 value : Nat, value ≤ fuel1 → value ≤ fuel2 →
      Fetcher.encodeVarintFuel fuel1 value = Fetcher.encodeVarintFuel fuel2 value := by
  intro fuel1
  induction fuel1 with
  | zero =>
      intro fuel2 value h1 h2
      have hv : value = 0 := by omega
      subst hv
      cases fuel2 with
      | zero => rfl
      | succ f2 => simp [Fetcher.encodeVarintFuel]
  | succ f1 ih =>
      intro fuel2 value h1 h2
      cases fuel2 with
      | zero =>
          have hv : value = 0 := by omega
          subst hv
          simp [Fetcher.encodeVarintFuel]
      | succ f2 =>
          by_cases hb : 0x7f < value
          · have hrec : value >>> 7 ≤ f1 := by
              rw [shiftRight7_eq_div]
              omega
            have hrec2 : value >>> 7 ≤ f2 := by
              rw [shiftRight7_eq_div]
              omega
            simp only [Fetcher.encodeVarintFuel, if_pos hb]
            rw [ih f2 (value >>> 7) hrec hrec2]
          · simp only [Fetcher.encodeVarintFuel, if_neg hb]

/-- Loop equation of `Fetcher.encodeVarint`, matching the source loop
line for line. -/
theorem encodeVarint_eq (value : Nat) :
    Fetcher.encodeVarint value =
      if 0x7f < value then
        ((value &&& 0x7f) ||| 0x80) :: Fetcher.encodeVarint (value >>> 7)
      else
        [value] := by
  cases value with
  | zero => simp [Fetcher.encodeVarint, Fetcher.encodeVarintFuel]
  | succ v =>
      by_cases hb : 0x7f < v + 1
      · have hrec : (v + 1) >>> 7 ≤ v := by
          rw [shiftRight7_eq_div]
          omega
        simp only [Fetcher.encodeVarint, Fetcher.encodeVarintFuel, if_pos hb]
        rw [encodeVarintFuel_congr v ((v + 1) >>> 7) ((v + 1) >>> 7) hrec (Nat.le_refl _)]
      · simp only [Fetcher.encodeVarint, Fetcher.encodeVarintFuel, if_neg hb]

/-- Masking with the low 7 bits is reduction modulo 128. -/
theorem and127_eq_mod (v : Nat) : v &&& 0x7f = v % 128 := by
  have h := Nat.and_pow_two_sub_one_eq_mod v 7
  norm_num at h
  exact h

/-- Setting bit 7 on a 7-bit value adds 128. -/
theorem or128_eq_add : ∀ x < 128, x ||| 128 = x + 128 := by decide

/-- Bitwise or of two bytes is a byte. -/
theorem or_lt_256 (a b : Nat) (ha : a < 256) (hb : b < 256) : a ||| b < 256 := by
  have h256 : (256 : Nat) = 2 ^ 8 := by norm_num
  rw [h256] at ha hb ⊢
  exact Nat.or_lt_two_pow ha hb

/-- Varint round trip: decoding an encoded value in front of any suffix
recovers the value and the untouched suffix, so the encoded length
boundaries are recoverable even for multi-byte encodings. -/
theorem decodeVarint_encode (n : Nat) (rest : List Nat) :
    decodeVarint (Fetcher.encodeVarint n ++ rest) = some (n, rest) := by
  induction n using Nat.strong_induction_on with
  | _ n ih =>
    rw [encodeVarint_eq]
    by_cases hb : 0x7f < n
    · rw [if_pos hb]
      have hhead : (n &&& 0x7f) ||| 0x80 = n % 128 + 128 := by
        rw [and127_eq_mod]
        exact or128_eq_add (n % 128) (by omega)
      rw [List.cons_append, hhead, shiftRight7_eq_div]
      simp only [decodeVarint]
      rw [if_neg (by omega)]
      rw [ih (n / 128) (Nat.div_lt_self (by omega) (by omega))]
      show some (n % 128 + 128 - 0x80 + 0x80 * (n / 128), rest) = some (n, rest)
      have hn : n % 128 + 128 - 0x80 + 0x80 * (n / 128) = n := by omega
      rw [hn]
    · rw [if_neg hb]
      rw [List.singleton_append]
      simp only [decodeVarint]
      rw [if_pos (by omega)]

/-- A varint length prefix followed by that many payload bytes reads
back as exactly the payload. -/
theorem readLenPrefixed_encode (f rest : List Nat) :
    readLenPrefixed (Fetcher.encodeVarint f.length ++ (f ++ rest)) = some (f, rest) := by
  unfold readLenPrefixed
  rw [decodeVarint_encode]
  show (if f.length ≤ (f ++ rest).length then
      some ((f ++ rest).take f.length, (f ++ rest).drop f.length) else none) = some (f, rest)
  rw [if_pos (by simp)]
  rw [List.take_left, List.drop_left]

/-- Consuming the byte that is present succeeds. -/
theorem expectByte_cons (b : Nat) (rest : List Nat) : expectByte b (b :: rest) = some rest := by
  simp [expectByte]

/-- Field framing of the outer record: for arbitrary payloads, a record
with correctly varint-length-prefixed fields decodes back to exactly
those payloads. -/
theorem decodeOuter_frame (f1 f2 f3 : List Nat) :
    decodeOuter (0x0a :: (Fetcher.encodeVarint f1.length ++ (f1 ++ (0x12 ::
      (Fetcher.encodeVarint f2.length ++ (f2 ++ (0x18 :: 0x01 :: 0x2a ::
      (Fetcher.encodeVarint f3.length ++ (f3 ++
        [0x30, 0x01, 0x38, 0x01, 0x40, 0x01]))))))))) = some (f1, f2, f3) := by
  simp [decodeOuter, expectByte_cons, readLenPrefixed_encode, expectByte]

/-- Every base64 output byte is below 128. -/
theorem b64Char_lt (i : Nat) : b64Char i < 128 := by
  unfold b64Char
  split_ifs <;> omega

/-- Every byte emitted by the base64 encoder is below 128. -/
theorem base64Bytes_mem : ∀ (l : List Nat), ∀ x ∈ base64Bytes l, x < 128
  | [] => by simp [base64Bytes]
  | [a] => by
      intro x hx
      simp only [base64Bytes, List.mem_cons, List.not_mem_nil, or_false] at hx
      rcases hx with rfl | rfl | rfl | rfl
      · exact b64Char_lt _
      · exact b64Char_lt _
      · omega
      · omega
  | [a, b] => by
      intro x hx
      simp only [base64Bytes, List.mem_cons, List.not_mem_nil, or_false] at hx
      rcases hx with rfl | rfl | rfl | rfl
      · exact b64Char_lt _
      · exact b64Char_lt _
      · exact b64Char_lt _
      · omega
  | a :: b :: c :: rest => by
      intro x hx
      simp only [base64Bytes, List.mem_cons] at hx
      rcases hx with rfl | rfl | rfl | rfl | h
      · exact b64Char_lt _
      · exact b64Char_lt _
      · exact b64Char_lt _
      · exact b64Char_lt _
      · exact base64Bytes_mem rest x h

/-- The base64 bytes are in particular bytes. -/
theorem base64Bytes_mem256 (l : List Nat) : ∀ x ∈ base64Bytes l, x < 256 := by
  intro x hx
  have := base64Bytes_mem l x hx
  omega

/-- Hexadecimal digits of nibbles are bytes. -/
theorem hexDigitUpper_lt (n : Nat) (h : n ≤ 15) : hexDigitUpper n < 256 := by
  unfold hexDigitUpper
  split_ifs <;> omega

/-- Percent encoding of a byte list yields bytes. -/
theorem percentEncodeBytes_mem :
    ∀ (l : List Nat), (∀ b ∈ l, b < 256) → ∀ x ∈ percentEncodeBytes l, x < 256
  | [] => by simp [percentEncodeBytes]
  | b :: rest => by
      intro hl x hx
      simp only [percentEncodeBytes, List.mem_append] at hx
      rcases hx with hx | hx
      · have hb : b < 256 := hl b (List.mem_cons_self b rest)
        by_cases hu : isUnreservedByte b = true
        · rw [if_pos hu] at hx
          simp only [List.mem_cons, List.not_mem_nil, or_false] at hx
          omega
        · rw [if_neg hu] at hx
          have h4 : b >>> 4 ≤ 15 := by
            have hdiv : b >>> 4 = b / 16 := by
              rw [Nat.shiftRight_eq_div_pow]
            rw [hdiv]
            omega
          have h15 : b &&& 15 ≤ 15 := Nat.and_le_right
          simp only [List.mem_cons, List.not_mem_nil, or_false] at hx
          rcases hx with rfl | rfl | rfl
          · omega
          · exact hexDigitUpper_lt _ h4
          · exact hexDigitUpper_lt _ h15
      · exact percentEncodeBytes_mem rest (fun y hy => hl y (List.mem_cons_of_mem b hy)) x hx

/-- An ASCII character UTF-8 encodes as its own single byte. -/
theorem utf8Char_ascii (c : Char) (h : c.toNat < 128) : utf8Char c = [c.toNat] := by
  simp [utf8Char, h]

/-- UTF-8 bytes of an ASCII character list are the character codes. -/
theorem utf8_flatten_ascii : ∀ (l : List Char), (∀ c ∈ l, c.toNat < 128) →
    (l.map utf8Char).flatten = l.map Char.toNat
  | [] => by simp
  | c :: t => by
      intro h
      simp only [List.map_cons, List.flatten_cons]
      rw [utf8Char_ascii c (h c (List.mem_cons_self c t))]
      rw [utf8_flatten_ascii t (fun d hd => h d (List.mem_cons_of_mem c hd))]
      simp

/-- The byte list of an ASCII string is its character code list. -/
theorem strBytes_ascii (s : String) (h : ∀ c ∈ s.data, c.toNat < 128) :
    strBytes s = s.data.map Char.toNat := by
  unfold strBytes
  exact utf8_flatten_ascii s.data h

/-- The bytes of an ASCII string are bytes. -/
theorem strBytes_mem_ascii (s : String) (h : ∀ c ∈ s.data, c.toNat < 128) :
    ∀ x ∈ strBytes s, x < 256 := by
  rw [strBytes_ascii s h]
  intro x hx
  simp only [List.mem_map] at hx
  obtain ⟨c, hc, rfl⟩ := hx
  have := h c hc
  omega

/-- ASCII characters weigh one UTF-16 code unit each. -/
theorem utf16_weights_ascii : ∀ (l : List Char), (∀ c ∈ l, c.toNat < 128) →
    (l.map (fun c => if c.toNat < 0x10000 then 1 else 2)).sum = l.length
  | [] => by simp
  | c :: t => by
      intro h
      simp only [List.map_cons, List.sum_cons]
      rw [if_pos (by have := h c (List.mem_cons_self c t); omega)]
      rw [utf16_weights_ascii t (fun d hd => h d (List.mem_cons_of_mem c hd))]
      simp only [List.length_cons]
      omega

/-- The JavaScript length of an ASCII string is its character count. -/
theorem utf16Length_ascii (s : String) (h : ∀ c ∈ s.data, c.toNat < 128) :
    utf16Length s = s.data.length := by
  unfold utf16Length
  exact utf16_weights_ascii s.data h

/-- For an ASCII string the JavaScript length and the UTF-8 byte count
agree, so the source emitting `Buffer.from(s)` after a length prefix of
`s.length` emits a consistent field. -/
theorem utf16_eq_bytesLen (s : String) (h : ∀ c ∈ s.data, c.toNat < 128) :
    utf16Length s = (strBytes s).length := by
  rw [strBytes_ascii s h, utf16Length_ascii s h, List.length_map]

/-- Every varint byte is a byte. -/
theorem encodeVarint_mem (v : Nat) : ∀ x ∈ Fetcher.encodeVarint v, x < 256 := by
  induction v using Nat.strong_induction_on with
  | _ v ih =>
    intro x hx
    rw [encodeVarint_eq] at hx
    by_cases hb : 0x7f < v
    · rw [if_pos hb] at hx
      rcases List.mem_cons.mp hx with rfl | hmem
      · have h1 : v &&& 0x7f ≤ 0x7f := Nat.and_le_right
        exact or_lt_256 _ _ (by omega) (by omega)
      · refine ih (v >>> 7) ?_ x hmem
        rw [shiftRight7_eq_div]
        exact Nat.div_lt_self (by omega) (by omega)
    · rw [if_neg hb] at hx
      simp at hx
      omega

/-- All outer record entries are bytes when the identifier and language
are ASCII, so the `Buffer.from` mask leaves them unchanged. -/
theorem outerParts_mem (videoId lang : String)
    (hv : ∀ c ∈ videoId.data, c.toNat < 128) :
    ∀ x ∈ Fetcher.outerParts videoId lang, x < 256 := by
  unfold Fetcher.outerParts
  refine List.forall_mem_append.mpr ⟨List.forall_mem_append.mpr
    ⟨List.forall_mem_append.mpr ⟨List.forall_mem_append.mpr ⟨List.forall_mem_append.mpr
      ⟨List.forall_mem_append.mpr ⟨by decide, encodeVarint_mem _⟩,
        strBytes_mem_ascii videoId hv⟩,
      List.forall_mem_append.mpr ⟨List.forall_mem_append.mpr ⟨by decide, encodeVarint_mem _⟩,
        percentEncodeBytes_mem _ (base64Bytes_mem256 _)⟩⟩, by decide⟩,
    List.forall_mem_append.mpr ⟨List.forall_mem_append.mpr ⟨by decide, encodeVarint_mem _⟩,
      strBytes_mem_ascii Fetcher.panelName (by decide)⟩⟩, by decide⟩

/-- The `Buffer.from` mask is the identity on byte lists. -/
theorem bufFrom_eq_self (l : List Nat) (h : ∀ b ∈ l, b < 256) : bufFrom l = l := by
  unfold bufFrom
  have h2 : ∀ b ∈ l, b % 256 = id b := by
    intro b hb
    simp [Nat.mod_eq_of_lt (h b hb)]
  rw [List.map_congr_left h2, List.map_id]

/-- Claim C2, counterexample: a long-host URL whose path is a `/shorts/`
path and which also carries a `v` query parameter yields the shorts path
segment, not the value of `v` as the claim demands. -/
theorem C2_counterexample :
    extractYoutubeId ("https://www.youtube.com/shorts/abc12345678?v=xyz98765432")
        (some ⟨"www.youtube.com", "/shorts/abc12345678", some ("xyz98765432")⟩) =
      .ok ("abc12345678") ∧
    ¬ extractYoutubeId ("https://www.youtube.com/shorts/abc12345678?v=xyz98765432")
        (some ⟨"www.youtube.com", "/shorts/abc12345678", some ("xyz98765432")⟩) =
      .ok ("xyz98765432") := by
  refine ⟨rfl, fun h => ?_⟩
  rw [show extractYoutubeId ("https://www.youtube.com/shorts/abc12345678?v=xyz98765432")
        (some ⟨"www.youtube.com", "/shorts/abc12345678", some ("xyz98765432")⟩) =
      .ok ("abc12345678") from rfl] at h
  exact absurd (Except.ok.inj h) (by decide)

/-- Claim C2, amended: on long-host URLs the `/shorts/` path check comes
first; the `v` query parameter is consulted only when the path does not
start with `/shorts/`, in which case a present non-empty `v` value is
returned; when the path does start with `/shorts/` with a non-empty
remainder, that remainder is returned even when `v` is also present. -/
theorem C2_amended (input : String) (url : URLParts)
    (hin : input ≠ "") (hbe : url.hostname ≠ "youtu.be")
    (hyt : jsIncludes url.hostname ("youtube.com") = true) :
    (¬ jsStartsWith url.pathname ("/shorts/") = true →
      ∀ v, url.searchParamV = some v → v ≠ "" →
        extractYoutubeId input (some url) = .ok v) ∧
    (jsStartsWith url.pathname ("/shorts/") = true → jsSlice url.pathname 8 ≠ "" →
      extractYoutubeId input (some url) = .ok (jsSlice url.pathname 8)) := by
  constructor
  · intro hns v hv hvne
    simp [extractYoutubeId, extractResolve, extractTryBody, hin, hbe, hyt, hns, hv, hvne]
  · intro hs hne
    simp [extractYoutubeId, extractResolve, extractTryBody, hin, hbe, hyt, hs, hne]

/-- Claim C2, witness: the amended theorem applied to a concrete watch
URL carrying a `v` parameter. -/
theorem C2_witness :
    extractYoutubeId ("https://www.youtube.com/watch?v=dQw4w9WgXcQ")
        (some ⟨"www.youtube.com", "/watch", some ("dQw4w9WgXcQ")⟩) = .ok ("dQw4w9WgXcQ") :=
  (C2_amended ("https://www.youtube.com/watch?v=dQw4w9WgXcQ")
      ⟨"www.youtube.com", "/watch", some ("dQw4w9WgXcQ")⟩
      (by decide) (by decide) (by decide)).1 (by decide) ("dQw4w9WgXcQ") rfl (by decide)

/-- Claim C3, counterexample: a `youtu.be` URL with a bare `/` path is
accepted and yields the empty string, which neither matches the
identifier pattern nor is non-empty; identifiers extracted from URL
branches are returned without validation. -/
theorem C3_counterexample :
    extractYoutubeId ("https://youtu.be/") (some ⟨"youtu.be", "/", none⟩) = .ok ("") ∧
    matchesIdPattern ("") = false :=
  ⟨rfl, rfl⟩

/-- Claim C3, amended: the pattern invariant holds for the inputs
accepted through the bare-identifier branch (inputs that do not parse as
URLs): such an accepted identifier is returned verbatim, matches
`^-?[a-zA-Z0-9_-]{10,11}$` and is non-empty.  Identifiers extracted from
URL branches are returned verbatim without validation. -/
theorem C3_amended (input out : String)
    (h : extractYoutubeId input none = .ok out) :
    out = input ∧ matchesIdPattern out = true ∧ out ≠ "" := by
  unfold extractYoutubeId catchBranch at h
  by_cases hin : input = ""
  · simp [hin] at h
  · rw [if_neg hin] at h
    by_cases hp : matchesIdPattern input = true
    · rw [if_pos hp] at h
      have he : input = out := Except.ok.inj h
      subst he
      refine ⟨rfl, hp, hin⟩
    · rw [if_neg hp] at h
      exact absurd h (by simp)

/-- Claim C3, witness: a valid bare identifier is returned verbatim and
satisfies the pattern invariant. -/
theorem C3_witness :
    ("dQw4w9WgXcQ" : String) = ("dQw4w9WgXcQ") ∧
    matchesIdPattern ("dQw4w9WgXcQ") = true ∧ ("dQw4w9WgXcQ" : String) ≠ ("") :=
  C3_amended ("dQw4w9WgXcQ") ("dQw4w9WgXcQ") rfl

/-- Claim C10: every failure of the identifier normalizer carries the
`InvalidParams` code.  Errors thrown inside the URL try block are caught
by the surrounding catch and re-validated against the bare-identifier
pattern, so they too surface as `InvalidParams`. -/
theorem C10_invalid_params_only (input : String) (parse : Option URLParts) (e : McpError)
    (h : extractYoutubeId input parse = .error e) : e.code = .InvalidParams := by
  have hcatch : ∀ e2, catchBranch input = .error e2 → e2.code = .InvalidParams := by
    intro e2 h2
    unfold catchBranch at h2
    by_cases hp : matchesIdPattern input = true
    · rw [if_pos hp] at h2
      exact absurd h2 (by simp)
    · rw [if_neg hp] at h2
      rw [← Except.error.inj h2]
  unfold extractYoutubeId at h
  by_cases hin : input = ""
  · rw [if_pos hin] at h
    rw [← Except.error.inj h]
  · rw [if_neg hin] at h
    cases parse with
    | none => exact hcatch e h
    | some url =>
        have h1 : extractResolve input (extractTryBody input url) = Except.error e := h
        cases htb : extractTryBody input url with
        | ret id =>
            rw [htb] at h1
            exact Except.noConfusion (show Except.ok id = Except.error e from h1)
        | thrown e2 =>
            rw [htb] at h1
            exact hcatch e (show catchBranch input = Except.error e from h1)
        | fallthrough =>
            rw [htb] at h1
            rw [← Except.error.inj (show Except.error (⟨ErrorCode.InvalidParams,
                "Could not extract video ID from: " ++ input⟩ : McpError) = Except.error e from h1)]

/-- Claim C10, witness: a malformed bare input fails with the
`InvalidParams` code. -/
theorem C10_witness :
    (⟨.InvalidParams, "Invalid YouTube video ID: !!"⟩ : McpError).code = .InvalidParams :=
  C10_invalid_params_only ("!!") none ⟨.InvalidParams, "Invalid YouTube video ID: !!"⟩ rfl

/-- Claim C5: for ASCII identifier and language inputs the Binary
Parameter Encoder is deterministic, and every length indicator is a
varint (7 payload bits per byte, continuation bit on all but the last
byte), so field-level decoding of the produced outer record recovers
the original field boundaries: the video id bytes, the percent-encoded
inner record, and the panel name, whatever their lengths. -/
theorem C5_encoder (videoId lang : String)
    (hv : ∀ c ∈ videoId.data, c.toNat < 128) :
    (∀ v2 l2 : String, videoId = v2 → lang = l2 →
      Fetcher.buildParams videoId lang = Fetcher.buildParams v2 l2) ∧
    decodeOuter (Fetcher.outerBytes videoId lang) =
      some (strBytes videoId, Fetcher.innerEncoded lang, strBytes Fetcher.panelName) := by
  refine ⟨fun v2 l2 h1 h2 => by rw [h1, h2], ?_⟩
  unfold Fetcher.outerBytes
  rw [bufFrom_eq_self _ (outerParts_mem videoId lang hv)]
  unfold Fetcher.outerParts
  rw [utf16_eq_bytesLen videoId hv]
  rw [show utf16Length Fetcher.panelName = (strBytes Fetcher.panelName).length from by decide]
  have hframe := decodeOuter_frame (strBytes videoId) (Fetcher.innerEncoded lang)
    (strBytes Fetcher.panelName)
  rw [← hframe]
  congr 1
  simp [List.append_assoc]

set_option maxRecDepth 40000 in
/-- Claim C5, witness: at a concrete identifier and a 120-character
language code the percent-encoded inner record exceeds 127 bytes, and
the produced outer record still decodes back to the original field
boundaries. -/
theorem C5_witness :
    127 < (Fetcher.innerEncoded (String.mk (List.replicate 120 'a'))).length ∧
    decodeOuter (Fetcher.outerBytes ("dQw4w9WgXcQ") (String.mk (List.replicate 120 'a'))) =
      some (strBytes ("dQw4w9WgXcQ"), Fetcher.innerEncoded (String.mk (List.replicate 120 'a')),
        strBytes Fetcher.panelName) :=
  ⟨by decide,
    (C5_encoder ("dQw4w9WgXcQ") (String.mk (List.replicate 120 'a'))
      (by decide)).2⟩

/-- Claim C9: when the identifier, the language code and the
percent-encoded inner record are each at most 127 bytes long, the
legacy encoder variant with single-byte length prefixes and the strict
varint variant produce identical base64 output, because the varint of a
value at most 127 is that single byte. -/
theorem C9_legacy_equiv (videoId lang : String)
    (h1 : utf16Length videoId ≤ 127) (h2 : utf16Length lang ≤ 127)
    (h3 : (Fetcher.innerEncoded lang).length ≤ 127) :
    LegacyFetcher.buildParams videoId lang = Fetcher.buildParams videoId lang := by
  have hee : ∀ n : Nat, n ≤ 127 → Fetcher.encodeVarint n = [n] := by
    intro n hn
    rw [encodeVarint_eq, if_neg (by omega)]
  have hinner : LegacyFetcher.innerParts lang = Fetcher.innerParts lang := by
    unfold LegacyFetcher.innerParts Fetcher.innerParts
    rw [hee _ h2]
    simp
  have hiE : LegacyFetcher.innerEncoded lang = Fetcher.innerEncoded lang := by
    unfold LegacyFetcher.innerEncoded Fetcher.innerEncoded
    rw [hinner]
  have houter : LegacyFetcher.outerParts videoId lang = Fetcher.outerParts videoId lang := by
    unfold LegacyFetcher.outerParts Fetcher.outerParts
    rw [hiE, hee _ h1, hee _ h3, hee _ (show utf16Length Fetcher.panelName ≤ 127 from by decide)]
    simp
  unfold LegacyFetcher.buildParams Fetcher.buildParams Fetcher.outerBytes
  rw [houter]

set_option maxRecDepth 40000 in
/-- Claim C9, witness: the two encoder variants agree on a concrete
identifier and the two-letter language code. -/
theorem C9_witness :
    LegacyFetcher.buildParams ("dQw4w9WgXcQ") ("en") =
      Fetcher.buildParams ("dQw4w9WgXcQ") ("en") :=
  C9_legacy_equiv ("dQw4w9WgXcQ") ("en") (by decide) (by decide) (by decide)

/-- Claim C1, counterexample: on a response whose web path is present
but holds an empty list while the mobile path holds a well-formed
non-empty list, extraction fails with the no-transcript error instead of
extracting the mobile segments (which would convert to one line). -/
theorem C1_counterexample :
    extractLines (some []) (some [sampleSegment]) = .error .NoTranscriptAvailable ∧
    (convertSegments [sampleSegment]).length = 1 :=
  ⟨rfl, rfl⟩

/-- Claim C1, amended: segment extraction uses the web path whenever it
is present — JavaScript arrays are truthy even when empty — and falls
back to the mobile path only when the web path is absent; it fails with
the no-transcript error exactly when the list selected this way is
empty (or both paths are absent), and otherwise extracts the converted
lines of the selected list. -/
theorem C1_amended (web android : Option (List Segment)) :
    (extractLines web android = .error .NoTranscriptAvailable ↔
      selectSegments web android = []) ∧
    (∀ segs, web = some segs → selectSegments web android = segs) ∧
    (web = none → ∀ segs, android = some segs → selectSegments web android = segs) ∧
    (selectSegments web android ≠ [] →
      extractLines web android = .ok (convertSegments (selectSegments web android))) := by
  refine ⟨⟨?_, ?_⟩, ?_, ?_, ?_⟩
  · intro h
    by_cases hs : (selectSegments web android).length = 0
    · exact List.length_eq_zero.mp hs
    · exfalso
      have h2 : extractLines web android =
          .ok (convertSegments (selectSegments web android)) := by
        unfold extractLines
        rw [if_neg hs]
      rw [h2] at h
      exact Except.noConfusion h
  · intro h
    have hs : (selectSegments web android).length = 0 := by
      rw [h]
      rfl
    unfold extractLines
    rw [if_pos hs]
  · intro segs h
    rw [h]
    rfl
  · intro hw segs ha
    rw [hw, ha]
    rfl
  · intro hne
    unfold extractLines
    rw [if_neg (fun hc => hne (List.length_eq_zero.mp hc))]

/-- Claim C1, witness: with the web path absent and a non-empty mobile
path the extraction succeeds with the converted mobile segments. -/
theorem C1_witness :
    extractLines none (some [sampleSegment]) =
      .ok (convertSegments (selectSegments none (some [sampleSegment]))) :=
  (C1_amended none (some [sampleSegment])).2.2.2 (by decide)

/-- Claim C4, divergence record: in timestamped mode a line whose text
is empty after trimming is not dropped — the emptiness filter runs after
the timestamp prefix has been attached, so it never removes anything —
while plain mode does drop the same line: the same input yields a kept
`[0:05] ` line with timestamps and the empty string without. -/
theorem C4_formatter_eval :
    formatTranscript [{ text := ("  "), start := 5, dur := 1 }] true = ("[0:05] ") ∧
    formatTranscript [{ text := ("  "), start := 5, dur := 1 }] false = ("") :=
  ⟨rfl, rfl⟩

/-- Claim C6: chapter filtering removes a line exactly when its start
time in milliseconds lies in the half-open interval of some chapter
(kept at the right endpoint), the survivors keep their order (the result
is a sublist), the removed count is the length difference, and with
filtering disabled or no chapters the lines pass through unchanged with
count zero. -/
theorem C6_strip (stripAds : Bool) (adChapters : List AdChapter)
    (lines : List TranscriptLine) :
    stripAdChapters stripAds adChapters lines =
      (if stripAds = true ∧ adChapters ≠ [] then
        (lines.filter (fun line => decide (¬ ∃ ad ∈ adChapters,
            ad.startMs ≤ line.start * 1000 ∧ line.start * 1000 < ad.endMs)),
         lines.length - (lines.filter (fun line => decide (¬ ∃ ad ∈ adChapters,
            ad.startMs ≤ line.start * 1000 ∧ line.start * 1000 < ad.endMs))).length)
      else (lines, 0)) ∧
    (stripAdChapters stripAds adChapters lines).1.Sublist lines := by
  have hpred : ∀ line : TranscriptLine,
      (! adChapters.any (fun ad => decide (ad.startMs ≤ line.start * 1000) &&
        decide (line.start * 1000 < ad.endMs))) =
      decide (¬ ∃ ad ∈ adChapters,
        ad.startMs ≤ line.start * 1000 ∧ line.start * 1000 < ad.endMs) := by
    intro line
    refine Bool.eq_iff_iff.mpr ?_
    simp [List.any_eq_true]
  constructor
  · by_cases hc : stripAds = true ∧ adChapters ≠ []
    · have hb : (stripAds && decide (0 < adChapters.length)) = true := by
        rcases hc with ⟨h1, h2⟩
        subst h1
        simp [List.length_pos, h2]
      unfold stripAdChapters
      rw [if_pos hb, if_pos hc]
      rw [List.filter_congr (fun a _ => hpred a)]
    · have hb : (stripAds && decide (0 < adChapters.length)) = false := by
        cases stripAds with
        | false => rfl
        | true =>
            have h2 : adChapters = [] := by
              by_contra h3
              exact hc ⟨rfl, h3⟩
            subst h2
            simp
      unfold stripAdChapters
      rw [hb, if_neg hc]
      rfl
  · unfold stripAdChapters
    by_cases hb : (stripAds && decide (0 < adChapters.length)) = true
    · rw [if_pos hb]
      exact List.filter_sublist lines
    · rw [if_neg hb]

/-- Claim C7: on a successful tool call the result text is, in closed
form, the optional removal notice, then the optional language fallback
notice naming both codes and listing the available codes, then the
transcript, then the optional appended manual-exclusion hint; each
notice is a prefix (respectively a suffix) of the result under its
condition. -/
theorem C7_notices (text lang actualLang : String) (availableLanguages : List String)
    (adsStripped : Nat) (stripAds : Bool) (adChaptersFound : Nat) :
    applyNotices text lang actualLang availableLanguages adsStripped stripAds adChaptersFound =
      (if 0 < adsStripped then sponsoredFilteredNote adsStripped ++ ("\n\n") else ("")) ++
      ((if actualLang ≠ lang then
        languageFallbackNote lang actualLang availableLanguages ++ ("\n\n") else ("")) ++
      (text ++
      (if adsStripped = 0 ∧ stripAds = true ∧ adChaptersFound = 0 then
        ("\n\n") ++ noChapterMarkersNote else ("")))) ∧
    (0 < adsStripped → ∃ s,
      applyNotices text lang actualLang availableLanguages adsStripped stripAds adChaptersFound =
        sponsoredFilteredNote adsStripped ++ s) ∧
    (actualLang ≠ lang → adsStripped = 0 → ∃ s,
      applyNotices text lang actualLang availableLanguages adsStripped stripAds adChaptersFound =
        languageFallbackNote lang actualLang availableLanguages ++ s) ∧
    (stripAds = true → adChaptersFound = 0 → adsStripped = 0 → ∃ s,
      applyNotices text lang actualLang availableLanguages adsStripped stripAds adChaptersFound =
        s ++ noChapterMarkersNote) := by
  refine ⟨?_, ?_, ?_, ?_⟩
  · simp only [applyNotices]
    by_cases ha : 0 < adsStripped
    · have ha' : adsStripped ≠ 0 := by omega
      by_cases hl : actualLang = lang
      · simp [ha, ha', hl, String.append_assoc, String.append_empty, String.empty_append]
      · simp [ha, ha', hl, String.append_assoc, String.append_empty, String.empty_append]
    · have ha0 : adsStripped = 0 := by omega
      subst ha0
      by_cases hsf : (stripAds && decide (adChaptersFound = 0)) = true
      · have hsf2 := hsf
        simp only [Bool.and_eq_true, decide_eq_true_eq] at hsf2
        obtain ⟨hs1, hf⟩ := hsf2
        subst hs1
        subst hf
        by_cases hl : actualLang = lang
        · simp [hl, String.append_assoc, String.append_empty, String.empty_append]
        · simp [hl, String.append_assoc, String.append_empty, String.empty_append]
      · have hnc : ¬ (stripAds = true ∧ adChaptersFound = 0) := by
          intro hcon
          refine hsf ?_
          simp [hcon.1, hcon.2]
        by_cases hl : actualLang = lang
        · simp [hsf, hnc, hl, String.append_assoc, String.append_empty, String.empty_append]
        · simp [hsf, hnc, hl, String.append_assoc, String.append_empty, String.empty_append]
  · intro h
    refine ⟨("\n\n") ++ (if actualLang ≠ lang then
      languageFallbackNote lang actualLang availableLanguages ++ ("\n\n") ++ text
      else text), ?_⟩
    simp only [applyNotices]
    rw [if_pos h]
    simp [String.append_assoc]
  · intro hl h0
    subst h0
    by_cases hb : (stripAds && decide (adChaptersFound = 0)) = true
    · refine ⟨("\n\n") ++ text ++ (("\n\n") ++ noChapterMarkersNote), ?_⟩
      simp only [applyNotices]
      rw [if_neg (by omega : ¬ (0 : Nat) < 0), if_pos hb, if_pos hl]
      simp [String.append_assoc]
    · refine ⟨("\n\n") ++ text, ?_⟩
      simp only [applyNotices]
      rw [if_neg (by omega : ¬ (0 : Nat) < 0), if_neg hb, if_pos hl]
      simp [String.append_assoc]
  · intro hs hf h0
    subst h0
    subst hs
    subst hf
    refine ⟨(if actualLang ≠ lang then
      languageFallbackNote lang actualLang availableLanguages ++ ("\n\n") ++ text
      else text) ++ ("\n\n"), ?_⟩
    simp only [applyNotices]
    simp [String.append_assoc]

/-- Claim C7, witness: the amended conditions realized on concrete
calls: a language fallback prefix, a removal-count prefix, and an
appended manual-exclusion hint. -/
theorem C7_witness :
    (∃ s, applyNotices ("hello") ("ko") ("en") [("en"), ("de")] 0 true 0 =
      languageFallbackNote ("ko") ("en") [("en"), ("de")] ++ s) ∧
    (∃ s, applyNotices ("hello") ("en") ("en") [] 3 true 1 =
      sponsoredFilteredNote 3 ++ s) ∧
    (∃ s, applyNotices ("hello") ("ko") ("en") [("en")] 0 true 0 =
      s ++ noChapterMarkersNote) :=
  ⟨(C7_notices ("hello") ("ko") ("en") [("en"), ("de")] 0 true 0).2.2.1 (by decide) rfl,
   (C7_notices ("hello") ("en") ("en") [] 3 true 1).2.1 (by omega),
   (C7_notices ("hello") ("ko") ("en") [("en")] 0 true 0).2.2.2 rfl rfl rfl⟩

/-- Claim C8: whenever the decoder succeeds, its `availableTracks` and
`adChapters` outputs are the sibling fields of the response defaulted
to empty lists when absent, and blanking both sibling fields never
changes whether decoding succeeds. -/
theorem C8_sibling_fields (r : ApiResponse) :
    (∀ d, decodeResponse r = .ok d →
      d.availableTracks = r.availableTracks.getD [] ∧
      d.adChapters = r.adChapters.getD []) ∧
    (decodeResponse { r with availableTracks := none, adChapters := none }).isOk =
      (decodeResponse r).isOk := by
  obtain ⟨err, web, android, tracks, ads, meta⟩ := r
  constructor
  · intro d hd
    dsimp only [decodeResponse] at hd
    cases err with
    | some e => exact Except.noConfusion (show (Except.error (FetchError.ApiError
        (apiErrorMessage e)) : Except FetchError DecodedTranscript) = .ok d from hd)
    | none =>
        cases hx : extractLines web android with
        | error e =>
            rw [hx] at hd
            exact Except.noConfusion
              (show (Except.error e : Except FetchError DecodedTranscript) = .ok d from hd)
        | ok lines =>
            rw [hx] at hd
            have h2 := Except.ok.inj hd
            rw [← h2]
            exact ⟨rfl, rfl⟩
  · dsimp only [decodeResponse]
    cases err with
    | some e => rfl
    | none =>
        cases hx : extractLines web android with
        | error e => rfl
        | ok lines => rfl

/-- Claim C8, witness: a response with both sibling fields absent still
decodes, and the decoded output carries empty lists for them. -/
theorem C8_witness :
    sampleDecoded.availableTracks = sampleResponse.availableTracks.getD [] ∧
    sampleDecoded.adChapters = sampleResponse.adChapters.getD [] :=
  (C8_sibling_fields sampleResponse).1 sampleDecoded (by rfl)

end YT
